import Mathlib

/-
  Verification of the asutp edge telemetry collector.

  Shallow embedding of the Go sources:
    internal/model/envelope.go, internal/model/datapoint.go
    internal/buffer/sqlite.go
    internal/collector/manager.go
    internal/collector/adapters/energy_api.go
    internal/sender/sender.go, internal/sender/retry.go
    internal/health/server.go

  Conventions:
  * Go `any` values that can inhabit `DataPoint.Value` in this program are
    modelled by `RawValue`; JSON values by `Jval`.  Floating point payloads
    are carried as rationals: none of the verified claims depends on IEEE
    rounding, only on which constructor a value has.
  * Timestamps are integers (UTC nanoseconds).  `time.Time.Format(RFC3339)`
    keeps whole seconds only, which `truncSec` models.
  * External stdlib routines whose exact behaviour no claim depends on
    (strconv.ParseFloat, strconv.Atoi, fmt.Sprintf %v, encoding/json's
    text-level parser) are passed as explicit function parameters.
    strconv.ParseBool is modelled exactly, since a claim depends on it.
  * The SQLite table `buffer` is a list of `BufferRow`.  TEXT columns read
    back by GetPending are modelled through the outcome of the parse the Go
    code applies to them (`TimeCol`, `ValuesCol`); `scanOk = false` models a
    row on which `rows.Scan` itself fails.
-/

namespace Asutp

/-- Dynamic Go values that can appear as a `DataPoint.Value` (model/datapoint.go:
`Value any`).  Covers exactly the cases the adapter's switches mention. -/
inductive RawValue where
  | null
  | bool (b : Bool)
  | float64 (q : ℚ)
  | float32 (q : ℚ)
  | int (n : ℤ)
  | int64 (n : ℤ)
  | str (s : String)
  deriving DecidableEq

/-- JSON values, as produced by encoding/json for a `DataPoint.Value`. -/
inductive Jval where
  | null
  | bool (b : Bool)
  | num (q : ℚ)
  | str (s : String)
  deriving DecidableEq

/-- model/datapoint.go `DataPoint`.  `unit`/`severity` use `""` for the
omitted (`omitempty`) case. -/
structure DataPoint where
  name : String
  value : RawValue
  unit : String
  quality : String
  severity : String
  deriving DecidableEq

def QualityGood : String := "good"
def QualityBad : String := "bad"

/-- model/envelope.go `Envelope`.  `timestamp` is UTC nanoseconds. -/
structure Envelope where
  id : String
  stationID : String
  stationName : String
  timestamp : ℤ
  deviceID : String
  deviceName : String
  deviceGroup : String
  values : List DataPoint
  deriving DecidableEq

/-- json.Marshal on a dynamic value: every Go number becomes a JSON number. -/
def marshalValue : RawValue → Jval
  | .null => .null
  | .bool b => .bool b
  | .float64 q => .num q
  | .float32 q => .num q
  | .int n => .num (n : ℚ)
  | .int64 n => .num (n : ℚ)
  | .str s => .str s

/-- json.Unmarshal into `any`: JSON numbers always decode as float64. -/
def unmarshalValue : Jval → RawValue
  | .null => .null
  | .bool b => .bool b
  | .num q => .float64 q
  | .str s => .str s

/-- The JSON object serialized for one `DataPoint` (field-level view). -/
structure Jdp where
  name : String
  value : Jval
  unit : String
  quality : String
  severity : String
  deriving DecidableEq

def marshalDataPoint (d : DataPoint) : Jdp :=
  ⟨d.name, marshalValue d.value, d.unit, d.quality, d.severity⟩

def unmarshalDataPoint (j : Jdp) : DataPoint :=
  ⟨j.name, unmarshalValue j.value, j.unit, j.quality, j.severity⟩

def nsPerSec : ℤ := 1000000000

/-- `t.Format(time.RFC3339)` followed by `time.Parse` keeps whole seconds. -/
def truncSec (t : ℤ) : ℤ := nsPerSec * (t / nsPerSec)

/-- The `timestamp`/`created_at` TEXT column, seen through `time.Parse`:
either it parses to an instant or it is malformed. -/
inductive TimeCol where
  | parsed (t : ℤ)
  | malformed
  deriving DecidableEq

/-- The `values_json` TEXT column, seen through `json.Unmarshal`. -/
inductive ValuesCol where
  | parsed (l : List Jdp)
  | malformed
  deriving DecidableEq

/-- One row of the SQLite `buffer` table (buffer/sqlite.go migrate).
`scanOk = false` models a row on which `rows.Scan` fails (e.g. a NULL in a
string column); rows written by `Store` always scan. -/
structure BufferRow where
  id : String
  station_id : String
  station_name : String
  device_id : String
  device_name : String
  device_group : String
  timestamp : TimeCol
  values_json : ValuesCol
  created_at : ℤ
  sent : ℤ
  scanOk : Bool
  deriving DecidableEq

/-- The row `Store` inserts for an envelope at wall-clock time `now`
(buffer/sqlite.go Store): RFC3339-formatted timestamps, JSON-marshalled
values, `sent = 0`. -/
def encodeRow (e : Envelope) (now : ℤ) : BufferRow :=
  { id := e.id
    station_id := e.stationID
    station_name := e.stationName
    device_id := e.deviceID
    device_name := e.deviceName
    device_group := e.deviceGroup
    timestamp := .parsed (truncSec e.timestamp)
    values_json := .parsed (e.values.map marshalDataPoint)
    created_at := truncSec now
    sent := 0
    scanOk := true }

def storeDupErr : String :=
  "failed to store envelope: UNIQUE constraint failed: buffer.id"

/-- buffer/sqlite.go `Store`: a plain INSERT into a table whose `id` column
is the PRIMARY KEY.  Inserting an existing id violates the UNIQUE
constraint: the statement fails and the table is unchanged.  Returns
(error?, resulting table). -/
def Store (q : List BufferRow) (e : Envelope) (now : ℤ) :
    Option String × List BufferRow :=
  if q.any (fun r => r.id == e.id) then (some storeDupErr, q)
  else (none, q ++ [encodeRow e now])

/-- The row-scanning loop of `GetPending` (buffer/sqlite.go): each row is
scanned, its timestamp parsed and its values unmarshalled; any failure logs
and `continue`s to the next row. -/
def scanRows : List BufferRow → List Envelope
  | [] => []
  | r :: rest =>
    if r.scanOk = false then scanRows rest
    else
      match r.timestamp with
      | .malformed => scanRows rest
      | .parsed t =>
        match r.values_json with
        | .malformed => scanRows rest
        | .parsed js =>
          { id := r.id
            stationID := r.station_id
            stationName := r.station_name
            timestamp := t
            deviceID := r.device_id
            deviceName := r.device_name
            deviceGroup := r.device_group
            values := js.map unmarshalDataPoint } :: scanRows rest

/-- Composed per-row decode: the three stages of the scan loop as one
partial function (used to characterise `scanRows`, not to define it). -/
def decodeRow (r : BufferRow) : Option Envelope :=
  if r.scanOk = false then none
  else
    match r.timestamp, r.values_json with
    | .parsed t, .parsed js =>
      some { id := r.id
             stationID := r.station_id
             stationName := r.station_name
             timestamp := t
             deviceID := r.device_id
             deviceName := r.device_name
             deviceGroup := r.device_group
             values := js.map unmarshalDataPoint }
    | _, _ => none

/-- Stable insertion by `created_at` (ties keep first-come order). -/
def insertRow (r : BufferRow) : List BufferRow → List BufferRow
  | [] => [r]
  | x :: xs => if r.created_at ≤ x.created_at then r :: x :: xs else x :: insertRow r xs

/-- `ORDER BY created_at ASC` (lexicographic order on same-format RFC3339
strings is chronological order). -/
def sortByCreated : List BufferRow → List BufferRow
  | [] => []
  | r :: rest => insertRow r (sortByCreated rest)

/-- The rows the `GetPending` query returns: `WHERE sent = 0 ORDER BY
created_at ASC LIMIT ?`. -/
def pendingWindow (q : List BufferRow) (limit : ℕ) : List BufferRow :=
  (sortByCreated (q.filter (fun r => r.sent == 0))).take limit

/-- buffer/sqlite.go `GetPending`: query then scan loop. -/
def GetPending (q : List BufferRow) (limit : ℕ) : List Envelope :=
  scanRows (pendingWindow q limit)

/-- buffer/sqlite.go `MarkSent`: early return on an empty id list, otherwise
one transaction deleting every listed id. -/
def MarkSent (q : List BufferRow) (ids : List String) : List BufferRow :=
  if ids.isEmpty then q
  else q.filter (fun r => !(ids.contains r.id))

/-- buffer/sqlite.go `Cleanup`: `DELETE FROM buffer WHERE created_at <
cutoff` with `cutoff = now - maxAge` formatted to whole seconds; acknowledgment
status is not consulted. -/
def Cleanup (q : List BufferRow) (now maxAge : ℤ) : List BufferRow :=
  q.filter (fun r => !(decide (r.created_at < truncSec (now - maxAge))))

/-- buffer/sqlite.go `Count`: pending rows. -/
def Count (q : List BufferRow) : ℕ :=
  (q.filter (fun r => r.sent == 0)).length

/-- The redelivery loop body of `Manager.processBufferedData`
(collector/manager.go): walk the fetched envelopes in order, `break` on the
first failed send, collect the ids of the successful sends.  Returns
(envelopes on which Send was attempted, sentIDs). -/
def replayLoop (sendOk : Envelope → Bool) : List Envelope → List Envelope × List String
  | [] => ([], [])
  | e :: rest =>
    if sendOk e then
      let r := replayLoop sendOk rest
      (e :: r.1, e.id :: r.2)
    else ([e], [])

/-- Observable outcome of one replay cycle. -/
structure ReplayResult where
  fetched : List Envelope
  attempted : List Envelope
  acked : List String
  queue : List BufferRow
  deriving DecidableEq

/-- collector/manager.go `Manager.processBufferedData`: fetch up to 100
pending envelopes; if none, return at once (before Cleanup); otherwise
redeliver in order stopping at the first failure, `MarkSent` the delivered
prefix when non-empty, then `Cleanup` with the configured max age. -/
def processBufferedData (sendOk : Envelope → Bool) (q : List BufferRow)
    (now maxAge : ℤ) : ReplayResult :=
  let pending := GetPending q 100
  if pending.isEmpty then ⟨pending, [], [], q⟩
  else
    let r := replayLoop sendOk pending
    let q1 := if r.2.isEmpty then q else MarkSent q r.2
    ⟨pending, r.1, r.2, Cleanup q1 now maxAge⟩

/-- collector/collector.go `CollectedData`: one device's poll outcome. -/
structure CollectedData where
  deviceID : String
  deviceName : String
  deviceGroup : String
  dataPoints : List DataPoint
  deriving DecidableEq

/-- model/envelope.go `NewEnvelope`; the fresh uuid and the clock reading
are explicit arguments. -/
def NewEnvelope (uuid : String) (now : ℤ)
    (stationID stationName deviceID deviceName deviceGroup : String)
    (values : List DataPoint) : Envelope :=
  { id := uuid
    stationID := stationID
    stationName := stationName
    timestamp := now
    deviceID := deviceID
    deviceName := deviceName
    deviceGroup := deviceGroup
    values := values }

/-- A delivery or buffering attempt the collection round makes. -/
inductive RoundAction where
  | sendAttempt (e : Envelope)
  | storeAttempt (e : Envelope)
  deriving DecidableEq

def actionEnvelope : RoundAction → Envelope
  | .sendAttempt e => e
  | .storeAttempt e => e

/-- The per-result processing of `Manager.collectAndSend`
(collector/manager.go 114-155): skip empty data, otherwise build an
envelope, attempt delivery, and on failure attempt a buffer store when
buffering is enabled.  `uuidGen k` supplies the uuid of the k-th envelope
built in the round; `k` counts envelopes already built. -/
def collectAndSend (sendOk : Envelope → Bool) (bufferEnabled : Bool)
    (uuidGen : ℕ → String) (now : ℤ) (stationID stationName : String) :
    List CollectedData → ℕ → List RoundAction
  | [], _ => []
  | d :: rest, k =>
    if d.dataPoints.isEmpty then
      collectAndSend sendOk bufferEnabled uuidGen now stationID stationName rest k
    else
      let e := NewEnvelope (uuidGen k) now stationID stationName
        d.deviceID d.deviceName d.deviceGroup d.dataPoints
      (if sendOk e then [.sendAttempt e]
       else .sendAttempt e :: (if bufferEnabled then [.storeAttempt e] else []))
      ++ collectAndSend sendOk bufferEnabled uuidGen now stationID stationName rest (k + 1)

/-- sender/sender.go `RetryConfig`; delays are durations in nanoseconds. -/
structure RetryConfig where
  maxAttempts : ℕ
  initialDelay : ℤ
  maxDelay : ℤ
  deriving DecidableEq

/-- sender/sender.go `HTTPSender.nextDelay`: double, capped at MaxDelay. -/
def nextDelay (cfg : RetryConfig) (current : ℤ) : ℤ :=
  let next := current * 2
  if cfg.maxDelay < next then cfg.maxDelay else next

/-- The delay the retry loop waits after failed attempt `n + 1`:
`delay` starts at InitialDelay and is updated by `nextDelay` after each
wait (sender/sender.go sendWithRetry). -/
def attemptDelay (cfg : RetryConfig) : ℕ → ℤ
  | 0 => cfg.initialDelay
  | n + 1 => nextDelay cfg (attemptDelay cfg n)

/-- Result of `sendWithRetry`: success, cancellation during a backoff wait,
or the aggregate all-attempts-failed error (carrying the attempt count and
the most recent underlying error, `none` when no attempt ran). -/
inductive SendResult where
  | ok
  | cancelled
  | aggregateFailed (attempts : ℕ) (lastErr : Option String)
  deriving DecidableEq

/-- The attempt loop of `HTTPSender.sendWithRetry` (sender/sender.go 74-103).
`attemptErr i` is the outcome of `doSend` on attempt `i` (`none` = success);
`cancelAt i` tells whether the cancellation signal fires during the backoff
wait after attempt `i`.  `att` is the current attempt number; `fuel` keeps
`att + fuel = cfg.maxAttempts + 1` so the loop runs attempts 1..maxAttempts. -/
def retryLoop (cfg : RetryConfig) (attemptErr : ℕ → Option String)
    (cancelAt : ℕ → Bool) : ℕ → ℕ → Option String → SendResult
  | _, 0, last => .aggregateFailed cfg.maxAttempts last
  | att, fuel + 1, _ =>
    match attemptErr att with
    | none => .ok
    | some e =>
      if att < cfg.maxAttempts then
        if cancelAt att then .cancelled
        else retryLoop cfg attemptErr cancelAt (att + 1) fuel (some e)
      else .aggregateFailed cfg.maxAttempts (some e)

/-- sender/sender.go `HTTPSender.sendWithRetry`. -/
def sendWithRetry (cfg : RetryConfig) (attemptErr : ℕ → Option String)
    (cancelAt : ℕ → Bool) : SendResult :=
  retryLoop cfg attemptErr cancelAt 1 cfg.maxAttempts none

/-- Outcome of the lightweight health probe request. -/
inductive ProbeOutcome where
  | transportError (msg : String)
  | response (status : ℕ)
  deriving DecidableEq

/-- sender/sender.go `HTTPSender.Health`: error on transport failure, error
on a 5xx status, nil otherwise. -/
def Health (o : ProbeOutcome) : Option String :=
  match o with
  | .transportError m => some ("health check failed: " ++ m)
  | .response st =>
    if 500 ≤ st then some ("server unhealthy: status " ++ toString st) else none

/-- internal/health `Status` values. -/
inductive HealthStatus where
  | healthy
  | unhealthy
  | degraded
  deriving DecidableEq

/-- internal/health `SenderHealthChecker.Check`: any error from the probe
maps to degraded, otherwise healthy. -/
def senderCheck (o : ProbeOutcome) : HealthStatus × String :=
  match Health o with
  | some e => (.degraded, e)
  | none => (.healthy, "")

/-- station config field entry (config/station.go `FieldConfig`). -/
structure FieldConfig where
  source : String
  target : String
  unit : String
  type : String
  severity : String
  deriving DecidableEq

/-- config/station.go `DeviceConfig`. -/
structure DeviceConfig where
  id : String
  name : String
  group : String
  endpoint : String
  requestParam : String
  fields : List FieldConfig
  deriving DecidableEq

/-- strconv.ParseBool: accepts exactly these twelve literals. -/
def strconvParseBool (s : String) : Option Bool :=
  if s = "1" ∨ s = "t" ∨ s = "T" ∨ s = "TRUE" ∨ s = "true" ∨ s = "True" then some true
  else if s = "0" ∨ s = "f" ∨ s = "F" ∨ s = "FALSE" ∨ s = "false" ∨ s = "False" then
    some false
  else none

/-- Go's `int(f)` on a float64: truncation toward zero. -/
def goTruncToInt (q : ℚ) : ℤ := if 0 ≤ q then ⌊q⌋ else -⌊-q⌋

/-- adapters/energy_api.go `toFloat`; `pf` models strconv.ParseFloat. -/
def toFloat (pf : String → Option ℚ) : RawValue → RawValue × String
  | .float64 q => (.float64 q, QualityGood)
  | .float32 q => (.float64 q, QualityGood)
  | .int n => (.float64 (n : ℚ), QualityGood)
  | .int64 n => (.float64 (n : ℚ), QualityGood)
  | .str s =>
    match pf s with
    | some f => (.float64 f, QualityGood)
    | none => (.null, QualityBad)
  | _ => (.null, QualityBad)

/-- adapters/energy_api.go `toInt`; `az` models strconv.Atoi. -/
def toInt (az : String → Option ℤ) : RawValue → RawValue × String
  | .int n => (.int n, QualityGood)
  | .int64 n => (.int n, QualityGood)
  | .float64 q => (.int (goTruncToInt q), QualityGood)
  | .str s =>
    match az s with
    | some n => (.int n, QualityGood)
    | none => (.null, QualityBad)
  | _ => (.null, QualityBad)

/-- adapters/energy_api.go `toBool`: note the string case never fails — when
strconv.ParseBool rejects the string it falls back to a lenient truthiness
check, still with quality good. -/
def toBool : RawValue → RawValue × String
  | .bool b => (.bool b, QualityGood)
  | .int n => (.bool (n != 0), QualityGood)
  | .float64 q => (.bool (q != 0), QualityGood)
  | .str s =>
    match strconvParseBool s with
    | some b => (.bool b, QualityGood)
    | none => (.bool (s == "1" || s == "on" || s == "true"), QualityGood)
  | _ => (.null, QualityBad)

/-- adapters/energy_api.go `convertValue`; `sp` models `fmt.Sprintf "%v"`. -/
def convertValue (pf : String → Option ℚ) (az : String → Option ℤ)
    (sp : RawValue → String) (rawValue : RawValue) (fieldType : String) :
    RawValue × String :=
  if rawValue = .null then (.null, QualityBad)
  else
    match fieldType with
    | "float" => toFloat pf rawValue
    | "int" => toInt az rawValue
    | "bool" => toBool rawValue
    | "string" => (.str (sp rawValue), QualityGood)
    | _ => (rawValue, QualityGood)

/-- One iteration of the loop in adapters/energy_api.go `transformData`:
an absent source field yields a nil value with quality bad; otherwise the
value is converted and the severity copied when configured. -/
def transformField (pf : String → Option ℚ) (az : String → Option ℤ)
    (sp : RawValue → String) (rawData : List (String × RawValue))
    (field : FieldConfig) : DataPoint :=
  match rawData.lookup field.source with
  | none =>
    { name := field.target, value := .null, unit := field.unit
      quality := QualityBad, severity := "" }
  | some rawValue =>
    let vq := convertValue pf az sp rawValue field.type
    { name := field.target, value := vq.1, unit := field.unit
      quality := vq.2
      severity := if field.severity = "" then "" else field.severity }

/-- adapters/energy_api.go `transformData`: one DataPoint per configured
field, in order. -/
def transformData (pf : String → Option ℚ) (az : String → Option ℤ)
    (sp : RawValue → String) (rawData : List (String × RawValue)) :
    List FieldConfig → List DataPoint
  | [] => []
  | f :: rest =>
    transformField pf az sp rawData f :: transformData pf az sp rawData rest

/-- Go `strings.TrimSpace` (also `bytes.TrimSpace` + string conversion as
used in Collect): strip leading and trailing whitespace. -/
def trimSpace (s : String) : String :=
  ⟨((s.data.dropWhile Char.isWhitespace).reverse.dropWhile Char.isWhitespace).reverse⟩

/-- adapters/energy_api.go Collect, body check for the literal boolean
"no data" marker. -/
def noDataBody (s : String) : Bool :=
  s == "True" || s == "False" || s == "true" || s == "false"

/-- adapters/energy_api.go Collect, Python-style boolean fixup. -/
def fixPythonBools (s : String) : String :=
  ((((s.replace ":True," ":true,").replace ":True\x7d" ":true\x7d").replace
      ":False," ":false,").replace ":False\x7d" ":false\x7d")

/-- The response-body handling of `EnergyAPIAdapter.Collect`
(adapters/energy_api.go 79-113), after a 200 response was read; `pj` models
the text-level `json.Unmarshal` into a map.  A trimmed body that is a bare
boolean literal yields a CollectedData with zero data points. -/
def energyCollect (pf : String → Option ℚ) (az : String → Option ℤ)
    (sp : RawValue → String) (pj : String → Option (List (String × RawValue)))
    (device : DeviceConfig) (body : String) : Option CollectedData :=
  let bodyStr := trimSpace body
  if noDataBody bodyStr then
    some ⟨device.id, device.name, device.group, []⟩
  else
    match pj (fixPythonBools bodyStr) with
    | none => none
    | some rawData =>
      some ⟨device.id, device.name, device.group,
            transformData pf az sp rawData device.fields⟩

/- ===================== Theorems ===================== -/

lemma attemptDelay_bounds (cfg : RetryConfig) (h0 : 0 ≤ cfg.initialDelay)
    (h1 : cfg.initialDelay ≤ cfg.maxDelay) :
    ∀ n, 0 ≤ attemptDelay cfg n ∧ attemptDelay cfg n ≤ cfg.maxDelay := by
  intro n
  induction n with
  | zero => exact ⟨h0, h1⟩
  | succ n ih =>
    rcases ih with ⟨hl, hu⟩
    show 0 ≤ nextDelay cfg (attemptDelay cfg n)
      ∧ nextDelay cfg (attemptDelay cfg n) ≤ cfg.maxDelay
    simp only [nextDelay]
    by_cases h : cfg.maxDelay < attemptDelay cfg n * 2
    · simp only [if_pos h]
      exact ⟨le_trans hl hu, le_refl _⟩
    · simp only [if_neg h]
      push_neg at h
      exact ⟨by linarith, h⟩

lemma attemptDelay_mono_step (cfg : RetryConfig) (h0 : 0 ≤ cfg.initialDelay)
    (h1 : cfg.initialDelay ≤ cfg.maxDelay) (n : ℕ) :
    attemptDelay cfg n ≤ attemptDelay cfg (n + 1) := by
  rcases attemptDelay_bounds cfg h0 h1 n with ⟨hl, hu⟩
  show attemptDelay cfg n ≤ nextDelay cfg (attemptDelay cfg n)
  simp only [nextDelay]
  by_cases h : cfg.maxDelay < attemptDelay cfg n * 2
  · simp only [if_pos h]
    exact hu
  · simp only [if_neg h]
    linarith

/-- C5 (counterexample): with InitialDelay = 2 and MaxDelay = 1 the delay
before the second attempt (2) exceeds both the delay before the third
attempt (1) and the configured maximum, so the delays are neither monotone
nor capped for every configuration. -/
theorem c5_backoff_counterexample :
    attemptDelay ⟨5, 2, 1⟩ 1 < attemptDelay ⟨5, 2, 1⟩ 0
    ∧ (⟨5, 2, 1⟩ : RetryConfig).maxDelay < attemptDelay ⟨5, 2, 1⟩ 0 := by
  decide

/-- C5 (amended): provided the configured initial delay is nonnegative and
does not exceed the configured maximum delay, the delay sequence of the
HTTPSender retry loop is monotonically non-decreasing across attempts and
never exceeds the maximum delay. -/
theorem c5_backoff_amended (cfg : RetryConfig) (h0 : 0 ≤ cfg.initialDelay)
    (h1 : cfg.initialDelay ≤ cfg.maxDelay) :
    (∀ i j, i ≤ j → attemptDelay cfg i ≤ attemptDelay cfg j)
    ∧ (∀ n, attemptDelay cfg n ≤ cfg.maxDelay) := by
  constructor
  · intro i j hij
    induction hij with
    | refl => exact le_refl _
    | step _ ih => exact le_trans ih (attemptDelay_mono_step cfg h0 h1 _)
  · intro n
    exact (attemptDelay_bounds cfg h0 h1 n).2

/-- Witness for C5 at the repository's default retry configuration. -/
theorem c5_witness :
    attemptDelay ⟨5, 1, 60⟩ 1 ≤ attemptDelay ⟨5, 1, 60⟩ 3
    ∧ attemptDelay ⟨5, 1, 60⟩ 2 ≤ (⟨5, 1, 60⟩ : RetryConfig).maxDelay :=
  ⟨(c5_backoff_amended ⟨5, 1, 60⟩ (by decide) (by decide)).1 1 3 (by decide),
   (c5_backoff_amended ⟨5, 1, 60⟩ (by decide) (by decide)).2 2⟩

/-- C4 (counterexample): a 500 response makes the sender health check report
degraded, not unhealthy — `SenderHealthChecker.Check` maps every error from
`HTTPSender.Health`, including the server-error one, to degraded. -/
theorem c4_health_counterexample :
    (senderCheck (.response 500)).1 = .degraded
    ∧ (senderCheck (.response 500)).1 ≠ .unhealthy := by
  decide

/-- C4 (amended): the composed sender health check has exactly two outcomes:
any failing probe (transport-level failure or a 5xx status) reports
degraded, any other response reports healthy; unhealthy is never reported. -/
theorem c4_health_amended (o : ProbeOutcome) :
    (senderCheck o).1 ≠ .unhealthy
    ∧ (∀ m, o = .transportError m → (senderCheck o).1 = .degraded)
    ∧ (∀ st, o = .response st → 500 ≤ st → (senderCheck o).1 = .degraded)
    ∧ (∀ st, o = .response st → st < 500 → (senderCheck o).1 = .healthy) := by
  refine ⟨?_, ?_, ?_, ?_⟩
  · cases o with
    | transportError m => simp [senderCheck, Health]
    | response st =>
      by_cases h : 500 ≤ st <;> simp [senderCheck, Health, h]
  · rintro m rfl
    simp [senderCheck, Health]
  · rintro st rfl h
    simp [senderCheck, Health, h]
  · rintro st rfl h
    have h' : ¬ 500 ≤ st := by omega
    simp [senderCheck, Health, h']

/-- Witness for C4 on the three probe outcome classes. -/
theorem c4_witness :
    (senderCheck (.transportError "connection refused")).1 = .degraded
    ∧ (senderCheck (.response 503)).1 = .degraded
    ∧ (senderCheck (.response 200)).1 = .healthy :=
  ⟨(c4_health_amended _).2.1 "connection refused" rfl,
   (c4_health_amended _).2.2.1 503 rfl (by decide),
   (c4_health_amended _).2.2.2 200 rfl (by decide)⟩

/-- C3 (counterexample): storing an envelope whose id is already in the
queue does not succeed — `Store` issues a plain INSERT against the PRIMARY
KEY column and returns the wrapped UNIQUE-constraint error. -/
theorem c3_store_duplicate_counterexample :
    (Store [encodeRow ⟨"a", "s", "S", 0, "d", "D", "g", []⟩ 0]
        ⟨"a", "s", "S", 0, "d", "D", "g", []⟩ 5).1 ≠ none := by
  decide

/-- C3 (amended): storing a record whose identifier already exists fails
with the UNIQUE-constraint store error while leaving the queue unchanged
(the existing entry is not modified, no new entry is added); only a fresh
identifier is appended without error. -/
theorem c3_store_duplicate_amended (q : List BufferRow) (e : Envelope) (now : ℤ) :
    ((∃ r ∈ q, r.id = e.id) → Store q e now = (some storeDupErr, q))
    ∧ ((∀ r ∈ q, r.id ≠ e.id) → Store q e now = (none, q ++ [encodeRow e now])) := by
  constructor
  · intro h
    have hany : q.any (fun r => r.id == e.id) = true := by
      rcases h with ⟨r, hr, hid⟩
      exact List.any_eq_true.mpr ⟨r, hr, by simpa using hid⟩
    simp [Store, hany]
  · intro h
    have hany : q.any (fun r => r.id == e.id) = false := by
      simp only [List.any_eq_false]
      intro r hr
      simpa using h r hr
    simp [Store, hany]

/-- Witness for C3: a concrete duplicate store errors and keeps the queue;
a concrete fresh store appends. -/
theorem c3_witness :
    Store [encodeRow ⟨"a", "s", "S", 0, "d", "D", "g", []⟩ 0]
        ⟨"a", "s", "S", 0, "d", "D", "g", []⟩ 5
      = (some storeDupErr, [encodeRow ⟨"a", "s", "S", 0, "d", "D", "g", []⟩ 0])
    ∧ Store [] ⟨"b", "s", "S", 0, "d", "D", "g", []⟩ 5
      = (none, [encodeRow ⟨"b", "s", "S", 0, "d", "D", "g", []⟩ 5]) :=
  ⟨(c3_store_duplicate_amended _ _ _).1
      ⟨encodeRow ⟨"a", "s", "S", 0, "d", "D", "g", []⟩ 0, by simp, rfl⟩,
   (c3_store_duplicate_amended _ _ _).2 (by simp)⟩

/-- A `timestamp` column `time.Parse` accepts. -/
def timeColOk : TimeCol → Bool
  | .parsed _ => true
  | .malformed => false

/-- A `values_json` column `json.Unmarshal` accepts. -/
def valuesColOk : ValuesCol → Bool
  | .parsed _ => true
  | .malformed => false

lemma scanRows_eq_filterMap (l : List BufferRow) :
    scanRows l = l.filterMap decodeRow := by
  induction l with
  | nil => rfl
  | cons r rest ih =>
    cases hs : r.scanOk with
    | false => simp [scanRows, decodeRow, hs, ih]
    | true =>
      cases ht : r.timestamp with
      | malformed => simp [scanRows, decodeRow, hs, ht, ih]
      | parsed t =>
        cases hv : r.values_json with
        | malformed => simp [scanRows, decodeRow, hs, ht, hv, ih]
        | parsed js => simp [scanRows, decodeRow, hs, ht, hv, ih]

/-- C10: the scan loop of `GetPending` is exactly a per-row partial decode
over the query window: a row that fails to scan, whose timestamp does not
parse, or whose values payload does not unmarshal is silently skipped
(`decodeRow` is `none` precisely for those rows), and the remaining
well-formed pending rows are returned, in order, with no error. -/
theorem c10_getpending_skips (q : List BufferRow) (limit : ℕ) :
    GetPending q limit = (pendingWindow q limit).filterMap decodeRow
    ∧ ∀ r : BufferRow,
        (decodeRow r).isSome
          = (r.scanOk && timeColOk r.timestamp && valuesColOk r.values_json) := by
  constructor
  · exact scanRows_eq_filterMap _
  · intro r
    cases hs : r.scanOk with
    | false => simp [decodeRow, hs]
    | true =>
      cases ht : r.timestamp with
      | malformed => simp [decodeRow, timeColOk, hs, ht]
      | parsed t =>
        cases hv : r.values_json with
        | malformed => simp [decodeRow, timeColOk, valuesColOk, hs, ht, hv]
        | parsed js => simp [decodeRow, timeColOk, valuesColOk, hs, ht, hv]

/-- Values whose Go dynamic type is preserved by a JSON round trip.
Integers and float32 come back as float64, everything else is stable. -/
def jsonStable : RawValue → Bool
  | .int _ => false
  | .int64 _ => false
  | .float32 _ => false
  | _ => true

/-- What a JSON round trip does to a dynamic value: every number decodes as
float64. -/
def canonValue : RawValue → RawValue
  | .int n => .float64 (n : ℚ)
  | .int64 n => .float64 (n : ℚ)
  | .float32 q => .float64 q
  | v => v

def canonDataPoint (d : DataPoint) : DataPoint :=
  { d with value := canonValue d.value }

/-- What Store followed by GetPending does to an envelope: the timestamp is
truncated to whole seconds and each value is JSON-canonicalised. -/
def canonEnvelope (e : Envelope) : Envelope :=
  { e with timestamp := truncSec e.timestamp
           values := e.values.map canonDataPoint }

lemma unmarshal_marshal_dp (d : DataPoint) :
    unmarshalDataPoint (marshalDataPoint d) = canonDataPoint d := by
  cases d with
  | mk name value unit quality severity => cases value <;> rfl

lemma map_unmarshal_marshal (l : List DataPoint) :
    (l.map marshalDataPoint).map unmarshalDataPoint = l.map canonDataPoint := by
  induction l with
  | nil => rfl
  | cons d rest ih => simp [ih, unmarshal_marshal_dp]

/-- C7 (counterexample): an envelope holding an integer-typed measurement
value does not round-trip exactly through Store/GetPending — the JSON layer
returns the value as a float64. -/
theorem c7_roundtrip_counterexample :
    GetPending
        [encodeRow ⟨"id1", "st", "STN", 0, "dev", "DEV", "grp",
            [⟨"n", .int 5, "", "good", ""⟩]⟩ 0] 100
      ≠ [⟨"id1", "st", "STN", 0, "dev", "DEV", "grp",
            [⟨"n", .int 5, "", "good", ""⟩]⟩] := by
  decide

/-- C7 (amended): a stored record fetched via GetPending before
acknowledgment round-trips field by field exactly, up to (a) truncation of
the timestamp to whole seconds by the RFC3339 format and (b) integer and
float32 measurement values returning as the numerically equal float64
(JSON numbers decode as float64); data points whose value type is stable
under JSON round-trip exactly. -/
theorem c7_roundtrip_amended (e : Envelope) (created : ℤ) :
    GetPending [encodeRow e created] 100 = [canonEnvelope e]
    ∧ (∀ d : DataPoint, unmarshalDataPoint (marshalDataPoint d) = canonDataPoint d)
    ∧ (∀ d : DataPoint, jsonStable d.value = true →
        unmarshalDataPoint (marshalDataPoint d) = d) := by
  refine ⟨?_, unmarshal_marshal_dp, ?_⟩
  · show scanRows (pendingWindow [encodeRow e created] 100) = [canonEnvelope e]
    have hw : pendingWindow [encodeRow e created] 100 = [encodeRow e created] := rfl
    rw [hw]
    simp [scanRows, encodeRow, canonEnvelope, map_unmarshal_marshal]
    exact fun a _ => unmarshal_marshal_dp a
  · intro d hd
    rw [unmarshal_marshal_dp]
    cases d with
    | mk name value unit quality severity =>
      cases value <;> simp_all [jsonStable, canonDataPoint, canonValue]

/-- Witness for C7: a concrete float-valued envelope round-trips to its
canonical form, and a concrete stable data point round-trips exactly. -/
theorem c7_witness :
    GetPending
        [encodeRow ⟨"w", "s", "S", 1500000000, "d", "D", "g",
            [⟨"p", .float64 (5 / 2 : ℚ), "kW", "good", ""⟩]⟩ 3] 100
      = [canonEnvelope ⟨"w", "s", "S", 1500000000, "d", "D", "g",
            [⟨"p", .float64 (5 / 2 : ℚ), "kW", "good", ""⟩]⟩]
    ∧ unmarshalDataPoint (marshalDataPoint ⟨"p", .float64 (5 / 2 : ℚ), "kW", "good", ""⟩)
      = ⟨"p", .float64 (5 / 2 : ℚ), "kW", "good", ""⟩ :=
  ⟨(c7_roundtrip_amended _ 3).1,
   (c7_roundtrip_amended ⟨"w", "s", "S", 1500000000, "d", "D", "g", []⟩ 3).2.2
      ⟨"p", .float64 (5 / 2 : ℚ), "kW", "good", ""⟩ (by decide)⟩

lemma replayLoop_eq (sendOk : Envelope → Bool) (l : List Envelope) :
    replayLoop sendOk l
      = (l.takeWhile sendOk ++ (l.dropWhile sendOk).take 1,
         (l.takeWhile sendOk).map Envelope.id) := by
  induction l with
  | nil => rfl
  | cons e rest ih =>
    cases h : sendOk e with
    | true => simp [replayLoop, h, ih]
    | false => simp [replayLoop, h]

lemma processBufferedData_eq (sendOk : Envelope → Bool) (q : List BufferRow)
    (now maxAge : ℤ) :
    processBufferedData sendOk q now maxAge
      = if (GetPending q 100).isEmpty then ⟨GetPending q 100, [], [], q⟩
        else
          ⟨GetPending q 100,
           (GetPending q 100).takeWhile sendOk
             ++ ((GetPending q 100).dropWhile sendOk).take 1,
           ((GetPending q 100).takeWhile sendOk).map Envelope.id,
           Cleanup
             (if (((GetPending q 100).takeWhile sendOk).map Envelope.id).isEmpty
              then q
              else MarkSent q (((GetPending q 100).takeWhile sendOk).map Envelope.id))
             now maxAge⟩ := by
  simp [processBufferedData, replayLoop_eq]

/-- C1: in a replay cycle, the redelivery attempts form a prefix of the
fetched (oldest-first) batch — exactly the successful prefix plus, when one
exists, the first failing record; no later record is attempted after the
first failure; the acknowledged ids are exactly those of the records
delivered before the failure, their rows are removed from the queue, and
every other row still within the retention age is kept. -/
theorem c1_replay_order_and_ack (sendOk : Envelope → Bool) (q : List BufferRow)
    (now maxAge : ℤ) :
    (processBufferedData sendOk q now maxAge).attempted
        = (processBufferedData sendOk q now maxAge).fetched.takeWhile sendOk
          ++ ((processBufferedData sendOk q now maxAge).fetched.dropWhile sendOk).take 1
    ∧ (processBufferedData sendOk q now maxAge).attempted
        <+: (processBufferedData sendOk q now maxAge).fetched
    ∧ (processBufferedData sendOk q now maxAge).acked
        = ((processBufferedData sendOk q now maxAge).fetched.takeWhile sendOk).map
            Envelope.id
    ∧ (∀ row ∈ q, row.id ∈ (processBufferedData sendOk q now maxAge).acked →
        row ∉ (processBufferedData sendOk q now maxAge).queue)
    ∧ (∀ row ∈ q, row.id ∉ (processBufferedData sendOk q now maxAge).acked →
        truncSec (now - maxAge) ≤ row.created_at →
        row ∈ (processBufferedData sendOk q now maxAge).queue) := by
  rw [processBufferedData_eq]
  by_cases hp : (GetPending q 100).isEmpty
  · have hnil : GetPending q 100 = [] := by
      cases hq : GetPending q 100 with
      | nil => rfl
      | cons a t => rw [hq] at hp; cases hp
    simp [hp, hnil]
    exact fun row hrow _ => hrow
  · rw [if_neg hp]
    refine ⟨rfl, ?_, rfl, ?_, ?_⟩
    · refine ⟨((GetPending q 100).dropWhile sendOk).drop 1, ?_⟩
      show (_ ++ _) ++ _ = _
      rw [List.append_assoc, List.take_append_drop, List.takeWhile_append_dropWhile]
    · intro row hrow hid hmem
      have hne :
          ((((GetPending q 100).takeWhile sendOk).map Envelope.id)).isEmpty = false := by
        cases hq : (((GetPending q 100).takeWhile sendOk).map Envelope.id) with
        | nil => rw [hq] at hid; cases hid
        | cons a t => rfl
      simp [Cleanup, MarkSent, hne, List.mem_filter] at hmem
      rcases List.mem_map.mp hid with ⟨x, hx, hxid⟩
      exact hmem.2.2 x hx hxid
    · intro row hrow hnid hage
      by_cases hemp : ((((GetPending q 100).takeWhile sendOk).map Envelope.id)).isEmpty
      · simp [Cleanup, MarkSent, hemp, List.mem_filter, hrow]
        exact hage
      · simp [Cleanup, MarkSent, hemp, List.mem_filter, hrow]
        refine ⟨hage, ?_⟩
        intro x hx hxid
        exact hnid (List.mem_map.mpr ⟨x, hx, hxid⟩)

/-- Witness for C1: with two buffered rows where only the older one's
redelivery succeeds, the acknowledged row is removed and the younger,
unacknowledged row survives the cycle. -/
theorem c1_witness :
    encodeRow ⟨"a", "s", "S", 0, "d", "D", "g", []⟩ 0
      ∉ (processBufferedData (fun e => e.id == "a")
          [encodeRow ⟨"a", "s", "S", 0, "d", "D", "g", []⟩ 0,
           encodeRow ⟨"b", "s", "S", 0, "d", "D", "g", []⟩ (2 * nsPerSec)]
          (5 * nsPerSec) (100 * nsPerSec)).queue
    ∧ encodeRow ⟨"b", "s", "S", 0, "d", "D", "g", []⟩ (2 * nsPerSec)
      ∈ (processBufferedData (fun e => e.id == "a")
          [encodeRow ⟨"a", "s", "S", 0, "d", "D", "g", []⟩ 0,
           encodeRow ⟨"b", "s", "S", 0, "d", "D", "g", []⟩ (2 * nsPerSec)]
          (5 * nsPerSec) (100 * nsPerSec)).queue :=
  ⟨(c1_replay_order_and_ack (fun e => e.id == "a") _ (5 * nsPerSec)
        (100 * nsPerSec)).2.2.2.1 _ (by decide) (by decide),
   (c1_replay_order_and_ack (fun e => e.id == "a") _ (5 * nsPerSec)
        (100 * nsPerSec)).2.2.2.2 _ (by decide) (by decide) (by decide)⟩

/-- C8 (counterexample): a cycle whose fetch returns zero pending records
returns before `Cleanup`: a stale row that age eviction would delete is
still in the queue after the cycle. -/
theorem c8_cleanup_counterexample :
    (processBufferedData (fun _ => true)
        [⟨"z", "s", "S", "d", "D", "g", .parsed 0, .parsed [], 0, 1, true⟩]
        (10 * nsPerSec) nsPerSec).queue
      = [⟨"z", "s", "S", "d", "D", "g", .parsed 0, .parsed [], 0, 1, true⟩]
    ∧ Cleanup [⟨"z", "s", "S", "d", "D", "g", .parsed 0, .parsed [], 0, 1, true⟩]
        (10 * nsPerSec) nsPerSec = [] := by
  decide

/-- C8 (amended): in every replay cycle whose fetch returned at least one
record, age eviction runs after the acknowledgment step unconditionally —
regardless of how many records were delivered or acknowledged, no row older
than the maximum age survives the cycle; a cycle that fetched no records
returns early without running Cleanup. -/
theorem c8_cleanup_amended (sendOk : Envelope → Bool) (q : List BufferRow)
    (now maxAge : ℤ) (h : GetPending q 100 ≠ []) :
    ∀ row ∈ (processBufferedData sendOk q now maxAge).queue,
      truncSec (now - maxAge) ≤ row.created_at := by
  intro row hrow
  have hp : (GetPending q 100).isEmpty = false := by
    cases hq : GetPending q 100 with
    | nil => exact absurd hq h
    | cons a t => rfl
  rw [processBufferedData_eq] at hrow
  rw [hp] at hrow
  simp only [Bool.false_eq_true, if_false, Cleanup, List.mem_filter] at hrow
  rcases hrow with ⟨_, hkeep⟩
  simp only [Bool.not_eq_true', decide_eq_false_iff_not, not_lt] at hkeep
  exact hkeep

/-- Witness for C8: a cycle over one fresh pending row leaves only rows
within the retention age. -/
theorem c8_witness :
    truncSec ((5 : ℤ) - 100)
      ≤ (encodeRow ⟨"a", "s", "S", 0, "d", "D", "g", []⟩ 0).created_at :=
  c8_cleanup_amended (fun _ => false)
    [encodeRow ⟨"a", "s", "S", 0, "d", "D", "g", []⟩ 0] 5 100 (by decide)
    (encodeRow ⟨"a", "s", "S", 0, "d", "D", "g", []⟩ 0) (by decide)

lemma convertValue_quality (pf : String → Option ℚ) (az : String → Option ℤ)
    (sp : RawValue → String) (raw : RawValue) (t : String) (hn : raw ≠ .null) :
    ((convertValue pf az sp raw t).2 = QualityBad
      ↔ (convertValue pf az sp raw t).1 = .null)
    ∧ ((convertValue pf az sp raw t).2 = QualityGood
      ∨ (convertValue pf az sp raw t).2 = QualityBad) := by
  unfold convertValue
  rw [if_neg hn]
  split
  · cases raw with
    | null => exact absurd rfl hn
    | bool b => simp [toFloat, QualityGood, QualityBad]
    | float64 q => simp [toFloat, QualityGood, QualityBad]
    | float32 q => simp [toFloat, QualityGood, QualityBad]
    | int n => simp [toFloat, QualityGood, QualityBad]
    | int64 n => simp [toFloat, QualityGood, QualityBad]
    | str s => cases hpf : pf s <;> simp [toFloat, hpf, QualityGood, QualityBad]
  · cases raw with
    | null => exact absurd rfl hn
    | bool b => simp [toInt, QualityGood, QualityBad]
    | float64 q => simp [toInt, QualityGood, QualityBad]
    | float32 q => simp [toInt, QualityGood, QualityBad]
    | int n => simp [toInt, QualityGood, QualityBad]
    | int64 n => simp [toInt, QualityGood, QualityBad]
    | str s => cases haz : az s <;> simp [toInt, haz, QualityGood, QualityBad]
  · cases raw with
    | null => exact absurd rfl hn
    | bool b => simp [toBool, QualityGood, QualityBad]
    | float64 q => simp [toBool, QualityGood, QualityBad]
    | float32 q => simp [toBool, QualityGood, QualityBad]
    | int n => simp [toBool, QualityGood, QualityBad]
    | int64 n => simp [toBool, QualityGood, QualityBad]
    | str s => cases hb : strconvParseBool s <;> simp [toBool, hb, QualityGood, QualityBad]
  · simp [QualityGood, QualityBad]
  · simp [QualityGood, QualityBad, hn]

/-- C2 (counterexample): a bool-typed field whose source value is the string
"banana" — which strconv.ParseBool rejects — still yields the fabricated
value false with quality good: `toBool`'s string case falls back to a
lenient truthiness check instead of downgrading quality. -/
theorem c2_quality_counterexample :
    strconvParseBool "banana" = none
    ∧ transformField (fun _ => none) (fun _ => none) (fun _ => "")
        [("x", .str "banana")] ⟨"x", "flag", "", "bool", ""⟩
      = ⟨"flag", .bool false, "", QualityGood, ""⟩ := by
  decide

/-- C2 (amended): an absent source field always yields a nil value with
quality bad; in every case quality is bad exactly when the value is nil
(never a fabricated value with quality bad, never a nil value with quality
good), and quality is always either good or bad; a float- or int-typed
field whose string value fails to parse yields nil with quality bad.  The
sole exception to "unparseable implies bad" is a bool-typed string value,
which is always accepted (lenient fallback) with quality good. -/
theorem c2_quality_amended (pf : String → Option ℚ) (az : String → Option ℤ)
    (sp : RawValue → String) (rawData : List (String × RawValue)) :
    (∀ field : FieldConfig, rawData.lookup field.source = none →
        (transformField pf az sp rawData field).value = .null
        ∧ (transformField pf az sp rawData field).quality = QualityBad)
    ∧ (∀ field : FieldConfig,
        ((transformField pf az sp rawData field).quality = QualityBad
          ↔ (transformField pf az sp rawData field).value = .null))
    ∧ (∀ field : FieldConfig,
        (transformField pf az sp rawData field).quality = QualityGood
        ∨ (transformField pf az sp rawData field).quality = QualityBad)
    ∧ (∀ (field : FieldConfig) (s : String), field.type = "float" →
        rawData.lookup field.source = some (.str s) → pf s = none →
        (transformField pf az sp rawData field).value = .null
        ∧ (transformField pf az sp rawData field).quality = QualityBad)
    ∧ (∀ (field : FieldConfig) (s : String), field.type = "int" →
        rawData.lookup field.source = some (.str s) → az s = none →
        (transformField pf az sp rawData field).value = .null
        ∧ (transformField pf az sp rawData field).quality = QualityBad) := by
  refine ⟨?_, ?_, ?_, ?_, ?_⟩
  · intro field h
    exact ⟨by simp [transformField, h], by simp [transformField, h]⟩
  · intro field
    cases hl : rawData.lookup field.source with
    | none => simp [transformField, hl, QualityBad]
    | some raw =>
      by_cases hn : raw = RawValue.null
      · simp [transformField, hl, hn, convertValue, QualityBad]
      · simpa [transformField, hl] using (convertValue_quality pf az sp raw field.type hn).1
  · intro field
    cases hl : rawData.lookup field.source with
    | none => simp [transformField, hl, QualityBad]
    | some raw =>
      by_cases hn : raw = RawValue.null
      · simp [transformField, hl, hn, convertValue, QualityBad]
      · simpa [transformField, hl] using (convertValue_quality pf az sp raw field.type hn).2
  · intro field s ht hl hpf
    constructor <;> simp [transformField, hl, ht, convertValue, toFloat, hpf, QualityBad]
  · intro field s ht hl haz
    constructor <;> simp [transformField, hl, ht, convertValue, toInt, haz, QualityBad]

/-- Witness for C2: an absent field, an unparseable float string and an
unparseable int string each produce a nil/bad measurement. -/
theorem c2_witness :
    (transformField (fun _ => none) (fun _ => none) (fun _ => "v")
        [("a", RawValue.str "zz")] ⟨"miss", "m", "", "float", ""⟩).quality = QualityBad
    ∧ (transformField (fun _ => none) (fun _ => none) (fun _ => "v")
        [("a", RawValue.str "zz")] ⟨"a", "t", "", "float", ""⟩).value = RawValue.null
    ∧ (transformField (fun _ => none) (fun _ => none) (fun _ => "v")
        [("a", RawValue.str "zz")] ⟨"a", "t", "", "int", ""⟩).quality = QualityBad :=
  ⟨((c2_quality_amended _ _ _ _).1 ⟨"miss", "m", "", "float", ""⟩ (by decide)).2,
   ((c2_quality_amended _ _ _ _).2.2.2.1 ⟨"a", "t", "", "float", ""⟩ "zz" rfl
      (by decide) rfl).1,
   ((c2_quality_amended _ _ _ _).2.2.2.2 ⟨"a", "t", "", "int", ""⟩ "zz" rfl
      (by decide) rfl).2⟩

/-- C6: a poll whose trimmed body is a bare boolean literal yields a
Collected Sample with zero measurements; the collection round behaves
identically with or without its empty samples (so an empty sample builds no
record, prompts no delivery attempt and no queue write), and every
delivery or store attempt the round does make carries a non-empty
measurement list. -/
theorem c6_empty_sample_skip (pf : String → Option ℚ) (az : String → Option ℤ)
    (sp : RawValue → String) (pj : String → Option (List (String × RawValue)))
    (sendOk : Envelope → Bool) (bufferEnabled : Bool) (uuidGen : ℕ → String)
    (now : ℤ) (stationID stationName : String) :
    (∀ (device : DeviceConfig) (body : String), noDataBody (trimSpace body) = true →
        energyCollect pf az sp pj device body
          = some ⟨device.id, device.name, device.group, []⟩)
    ∧ (∀ (results : List CollectedData) (k : ℕ),
        collectAndSend sendOk bufferEnabled uuidGen now stationID stationName results k
          = collectAndSend sendOk bufferEnabled uuidGen now stationID stationName
              (results.filter (fun d => !d.dataPoints.isEmpty)) k)
    ∧ (∀ (results : List CollectedData) (k : ℕ) (a : RoundAction),
        a ∈ collectAndSend sendOk bufferEnabled uuidGen now stationID stationName
              results k →
        (actionEnvelope a).values ≠ []) := by
  refine ⟨?_, ?_, ?_⟩
  · intro device body h
    simp [energyCollect, h]
  · intro results
    induction results with
    | nil => intro k; rfl
    | cons d rest ih =>
      intro k
      by_cases hd : d.dataPoints.isEmpty
      · simp [collectAndSend, hd, List.filter_cons, ih k]
      · simp [collectAndSend, hd, List.filter_cons, ih (k + 1)]
  · intro results
    induction results with
    | nil => intro k a ha; cases ha
    | cons d rest ih =>
      intro k a ha
      by_cases hd : d.dataPoints.isEmpty
      · rw [collectAndSend, if_pos hd] at ha
        exact ih k a ha
      · rw [collectAndSend, if_neg hd] at ha
        rcases List.mem_append.mp ha with h1 | h2
        · have hvals :
              (actionEnvelope a).values = d.dataPoints → (actionEnvelope a).values ≠ [] := by
            intro hv
            rw [hv]
            cases hdp : d.dataPoints with
            | nil => rw [hdp] at hd; exact absurd rfl hd
            | cons x xs => exact List.cons_ne_nil x xs
          by_cases hs : sendOk (NewEnvelope (uuidGen k) now stationID stationName
              d.deviceID d.deviceName d.deviceGroup d.dataPoints)
          · rw [if_pos hs] at h1
            rcases List.mem_singleton.mp h1 with rfl
            exact hvals rfl
          · rw [if_neg hs] at h1
            rcases List.mem_cons.mp h1 with rfl | h3
            · exact hvals rfl
            · by_cases hb : bufferEnabled
              · rw [if_pos hb] at h3
                rcases List.mem_singleton.mp h3 with rfl
                exact hvals rfl
              · rw [if_neg hb] at h3
                cases h3
        · exact ih (k + 1) a h2

/-- Witness for C6: a whitespace-padded "True" body yields the empty sample,
and a concrete round action built from a non-empty sample carries a
non-empty measurement list. -/
theorem c6_witness :
    energyCollect (fun _ => none) (fun _ => none) (fun _ => "v") (fun _ => none)
        ⟨"d1", "Dev", "grp", "e", "p", []⟩ " True\n"
      = some ⟨"d1", "Dev", "grp", []⟩
    ∧ (actionEnvelope (.sendAttempt (NewEnvelope "u" 0 "s" "S" "dv" "D" "g"
        [⟨"x", .bool true, "", "good", ""⟩]))).values ≠ [] :=
  ⟨(c6_empty_sample_skip (fun _ => none) (fun _ => none) (fun _ => "v")
      (fun _ => none) (fun _ => false) true (fun _ => "u") 0 "s" "S").1
      ⟨"d1", "Dev", "grp", "e", "p", []⟩ " True\n" (by decide),
   (c6_empty_sample_skip (fun _ => none) (fun _ => none) (fun _ => "v")
      (fun _ => none) (fun _ => false) true (fun _ => "u") 0 "s" "S").2.2
      [⟨"dv", "D", "g", [⟨"x", .bool true, "", "good", ""⟩]⟩] 0
      (.sendAttempt (NewEnvelope "u" 0 "s" "S" "dv" "D" "g"
        [⟨"x", .bool true, "", "good", ""⟩])) (by decide)⟩

lemma retryLoop_cancelled (cfg : RetryConfig) (ae : ℕ → Option String)
    (ca : ℕ → Bool) :
    ∀ (fuel att : ℕ) (last : Option String) (k : ℕ),
      att + fuel = cfg.maxAttempts + 1 →
      att ≤ k → k < cfg.maxAttempts →
      (∀ i, att ≤ i → i ≤ k → ae i ≠ none) →
      (∀ i, att ≤ i → i < k → ca i = false) →
      ca k = true →
      retryLoop cfg ae ca att fuel last = .cancelled := by
  intro fuel
  induction fuel with
  | zero =>
    intro att last k hsync hak hkm hae hca hk
    omega
  | succ fuel ih =>
    intro att last k hsync hak hkm hae hca hk
    cases hatt : ae att with
    | none => exact absurd hatt (hae att le_rfl hak)
    | some e =>
      have hlt : att < cfg.maxAttempts := lt_of_le_of_lt hak hkm
      by_cases hck : k = att
      · subst hck
        simp [retryLoop, hatt, hlt, hk]
      · have haklt : att < k := lt_of_le_of_ne hak (Ne.symm hck)
        have hcf : ca att = false := hca att le_rfl haklt
        simp only [retryLoop, hatt, if_pos hlt, hcf, Bool.false_eq_true, if_false]
        exact ih (att + 1) (some e) k (by omega) haklt hkm
          (fun i h1 h2 => hae i (by omega) h2)
          (fun i h1 h2 => hca i (by omega) h2) hk

lemma retryLoop_aggregate (cfg : RetryConfig) (ae : ℕ → Option String)
    (ca : ℕ → Bool) :
    ∀ (fuel att : ℕ) (last : Option String) (total : ℕ) (l' : Option String),
      att + fuel = cfg.maxAttempts + 1 →
      retryLoop cfg ae ca att fuel last = .aggregateFailed total l' →
      total = cfg.maxAttempts
      ∧ ∀ i, att ≤ i → i ≤ cfg.maxAttempts → ae i ≠ none := by
  intro fuel
  induction fuel with
  | zero =>
    intro att last total l' hsync heq
    simp only [retryLoop, SendResult.aggregateFailed.injEq] at heq
    exact ⟨heq.1.symm, fun i h1 h2 => by omega⟩
  | succ fuel ih =>
    intro att last total l' hsync heq
    cases hatt : ae att with
    | none => simp [retryLoop, hatt] at heq
    | some e =>
      by_cases hlt : att < cfg.maxAttempts
      · cases hca : ca att with
        | true => simp [retryLoop, hatt, hlt, hca] at heq
        | false =>
          simp only [retryLoop, hatt, if_pos hlt, hca, Bool.false_eq_true,
            if_false] at heq
          rcases ih (att + 1) (some e) total l' (by omega) heq with ⟨ht, hrest⟩
          refine ⟨ht, ?_⟩
          intro i h1 h2
          rcases eq_or_lt_of_le h1 with heqi | hlti
          · rw [← heqi, hatt]
            exact Option.noConfusion
          · exact hrest i (by omega) h2
      · have hattmax : att = cfg.maxAttempts := by omega
        simp only [retryLoop, hatt, if_neg hlt, SendResult.aggregateFailed.injEq] at heq
        refine ⟨heq.1.symm, ?_⟩
        intro i h1 h2
        have hieq : i = att := by omega
        rw [hieq, hatt]
        exact Option.noConfusion

/-- C9: when the first k attempts fail, no cancellation occurs before the
wait following attempt k, and the cancellation signal fires during that
wait (with retries remaining), `sendWithRetry` returns the cancellation
result, not a delivery failure; and the aggregate all-attempts-failed error
is returned only with the configured attempt count and only when every
attempt from 1 to the maximum actually failed. -/
theorem c9_cancellation_and_aggregate (cfg : RetryConfig)
    (ae : ℕ → Option String) (ca : ℕ → Bool) :
    (∀ k, 1 ≤ k → k < cfg.maxAttempts →
      (∀ i, 1 ≤ i → i ≤ k → ae i ≠ none) →
      (∀ i, 1 ≤ i → i < k → ca i = false) →
      ca k = true →
      sendWithRetry cfg ae ca = .cancelled)
    ∧ (∀ total last, sendWithRetry cfg ae ca = .aggregateFailed total last →
      total = cfg.maxAttempts ∧ ∀ i, 1 ≤ i → i ≤ cfg.maxAttempts → ae i ≠ none) := by
  constructor
  · intro k h1 h2 hae hca hk
    exact retryLoop_cancelled cfg ae ca cfg.maxAttempts 1 none k (by omega)
      h1 h2 hae hca hk
  · intro total last heq
    exact retryLoop_aggregate cfg ae ca cfg.maxAttempts 1 none total last
      (by omega) heq

/-- Witness for C9: with three configured attempts, a permanent send
failure and a cancellation firing during the wait after attempt 2 yields
the cancellation result; without cancellation the aggregate failure implies
attempt 2 indeed failed. -/
theorem c9_witness :
    sendWithRetry ⟨3, 1, 60⟩ (fun _ => some "boom") (fun k => k == 2) = .cancelled
    ∧ (some "boom" : Option String) ≠ none :=
  ⟨(c9_cancellation_and_aggregate ⟨3, 1, 60⟩ (fun _ => some "boom")
      (fun k => k == 2)).1 2 (by decide) (by decide)
      (fun i h1 h2 => by simp)
      (fun i h1 h2 => by
        have hne : i ≠ 2 := by omega
        simpa using hne)
      (by decide),
   ((c9_cancellation_and_aggregate ⟨3, 1, 60⟩ (fun _ => some "boom")
      (fun _ => false)).2 3 (some "boom") (by decide)).2 2 (by decide) (by decide)⟩

end Asutp
